import Mathlib

/-!
Shallow embedding of the VantageVision backend (`src/server.js`) and proofs
about its request handlers, persistence operations and the model-fallback
invoker.

Conventions of the embedding:
* The Mongo collections become lists of records inside a `DB` structure;
  `findOne` / `updateOne` / `deleteOne` act on the first matching record,
  `find` / `deleteMany` on all matching records, mirroring Mongo semantics.
* External collaborators (Cloudinary, the Gemini file manager and model API,
  `JSON.parse` of model output, `fs` operations) are parameters of the
  handler functions: each call's outcome is supplied by the environment and
  each call issued is recorded in an effect trace.
* JavaScript truthiness on optional string fields (`if (clip.publicId)`,
  `p.weakness ? … : …`, `json.title || …`) is modelled by `truthy` below:
  a missing value and the empty string are falsy.
* Machine-level details (timers, actual network I/O) are outside the
  embedding; the 2-second poll delay shows up only as one loop iteration.
-/

set_option autoImplicit false

deriving instance DecidableEq for Except

namespace VantageVision

/-- JS truthiness for an optional string field: `undefined` and `""` are falsy. -/
def truthy : Option String → Bool
  | none => false
  | some s => s ≠ ""

/-- One chat turn (`{ role, text }`) as embedded in Session.history and
Clip.chatHistory. -/
structure ChatTurn where
  role : String
  text : String
deriving Repr, DecidableEq

/-- `PlayerProfileSchema`: identifier, position, grade, notes, weaknesses,
last_updated (dates are modelled as `Nat` milliseconds). -/
structure PlayerProfile where
  identifier : String
  position : String
  grade : String
  notes : List String
  weaknesses : List String
  last_updated : Nat
deriving Repr, DecidableEq

/-- A `Session` document. The schema field `type` is rendered `stype`
(`type` is reserved in Lean). -/
structure SessionRec where
  sessionId : String
  owner : String
  title : String
  stype : String
  sport : String
  history : List ChatTurn
  roster : List PlayerProfile
deriving Repr, DecidableEq

/-- The `data` object of an analysis result. -/
structure AnalysisData where
  o_formation : String
  d_formation : String
deriving Repr, DecidableEq

/-- The `scouting_report` object of an analysis result (only the summary is
ever read or written by the server). -/
structure ScoutingReport where
  summary : String
deriving Repr, DecidableEq

/-- An entry of `players_detected` in an analysis result. -/
structure DetectedPlayer where
  identifier : String
  position : String
  grade : String
  observation : String
  weakness : Option String
deriving Repr, DecidableEq

/-- The parsed JSON analysis payload, restricted to the keys the server
reads or writes; absent keys are `none` / `[]`. -/
structure AnalysisJson where
  title : Option String
  data : Option AnalysisData
  scouting_report : Option ScoutingReport
  players_detected : List DetectedPlayer
deriving Repr, DecidableEq

/-- A `Clip` document. The schema field `section` is rendered
`sectionLabel` (`section` is reserved in Lean); the Mongo `_id` is
`mongoId`. -/
structure ClipRec where
  mongoId : String
  owner : String
  sessionId : String
  sport : String
  title : String
  formation : String
  o_formation : String
  d_formation : String
  sectionLabel : String
  videoUrl : String
  publicId : Option String
  geminiFileUri : Option String
  fullData : Option AnalysisJson
  chatHistory : List ChatTurn
  snapshots : List String
  createdAt : Nat
deriving Repr, DecidableEq

/-- The document database: the Session and Clip collections. -/
structure DB where
  sessions : List SessionRec
  clips : List ClipRec
deriving Repr, DecidableEq

/-- `updateOne`-style helper: rewrite the first element satisfying `p`. -/
def updateFirst {α : Type} (p : α → Bool) (f : α → α) : List α → List α
  | [] => []
  | x :: xs => if p x then f x :: xs else x :: updateFirst p f xs

/-- `deleteOne`-style helper: drop the first element satisfying `p`. -/
def deleteFirst {α : Type} (p : α → Bool) : List α → List α
  | [] => []
  | x :: xs => if p x then xs else x :: deleteFirst p xs

/-! ## Model-fallback invoker (`generateWithFallback`, server.js:44-61) -/

/-- Outcome of one `model.generateContent` attempt for a given model name:
either a successful result or a thrown error with its message. -/
inductive GenOutcome (R : Type) where
  | ok (r : R)
  | fail (msg : String)
deriving Repr, DecidableEq

/-- `MODEL_FALLBACK_LIST` (server.js:38-42). -/
def MODEL_FALLBACK_LIST : List String :=
  ["gemini-2.5-pro", "gemini-2.5-flash", "gemini-2.0-flash"]

/-- Rendering of `lastError?.message` in the aggregated error template:
when no error was recorded the optional chain yields `undefined`. -/
def lastErrMessage : Option String → String
  | none => "undefined"
  | some m => m

/-- The loop body of `generateWithFallback`: walk the model list carrying
`lastError`; return on the first success, otherwise throw the aggregated
error.  The returned first component is the list of model names actually
attempted, in order. -/
def generateWithFallbackGo {R : Type} (attempt : String → GenOutcome R) :
    List String → Option String → List String × Except String R
  | [], lastError =>
      ([], .error ("Analysis failed. Last error: " ++ lastErrMessage lastError))
  | m :: rest, lastError =>
      match attempt m with
      | .ok r => ([m], .ok r)
      | .fail msg =>
          let p := generateWithFallbackGo attempt rest (some msg)
          (m :: p.1, p.2)

/-- `generateWithFallback` (server.js:44-61), instrumented with the list of
attempted model names. `attempt m` is the outcome of the single
`generateContent` call against model `m` for the fixed prompt. -/
def generateWithFallback {R : Type} (attempt : String → GenOutcome R)
    (models : List String) : List String × Except String R :=
  generateWithFallbackGo attempt models none

/-- Unfolding lemma: a failing head attempt recurses on the tail with the
recorded error. -/
theorem generateWithFallbackGo_cons_fail {R : Type}
    (attempt : String → GenOutcome R) (a msg : String) (rest : List String)
    (acc : Option String) (h : attempt a = .fail msg) :
    generateWithFallbackGo attempt (a :: rest) acc =
      (a :: (generateWithFallbackGo attempt rest (some msg)).1,
        (generateWithFallbackGo attempt rest (some msg)).2) := by
  simp [generateWithFallbackGo, h]

/-- Unfolding lemma: a succeeding head attempt returns immediately. -/
theorem generateWithFallbackGo_cons_ok {R : Type}
    (attempt : String → GenOutcome R) (a : String) (r : R)
    (rest : List String) (acc : Option String) (h : attempt a = .ok r) :
    generateWithFallbackGo attempt (a :: rest) acc = ([a], .ok r) := by
  simp [generateWithFallbackGo, h]

/-- Helper: a prefix of all-failing attempts is traversed in order, and a
success right after it stops the traversal. -/
theorem generateWithFallbackGo_first_success {R : Type}
    (attempt : String → GenOutcome R) (pre post : List String) (m : String)
    (r : R) (acc : Option String)
    (hpre : ∀ x ∈ pre, ∃ msg, attempt x = .fail msg)
    (hm : attempt m = .ok r) :
    generateWithFallbackGo attempt (pre ++ m :: post) acc = (pre ++ [m], .ok r) := by
  induction pre generalizing acc with
  | nil => simpa using generateWithFallbackGo_cons_ok attempt m r post acc hm
  | cons a as ih =>
      obtain ⟨msg, hmsg⟩ := hpre a (by simp)
      rw [List.cons_append, generateWithFallbackGo_cons_fail attempt a msg _ acc hmsg,
        ih (some msg) (fun x hx => hpre x (List.mem_cons_of_mem a hx))]
      simp

/-- Helper: when every attempt fails, every model is tried in order and the
aggregated error carries the last model's failure message. -/
theorem generateWithFallbackGo_all_fail {R : Type}
    (attempt : String → GenOutcome R) (models : List String)
    (hne : models ≠ []) (acc : Option String)
    (hall : ∀ x ∈ models, ∃ msg, attempt x = .fail msg) :
    ∃ lastMsg, attempt (models.getLast hne) = .fail lastMsg ∧
      generateWithFallbackGo attempt models acc =
        (models, .error ("Analysis failed. Last error: " ++ lastMsg)) := by
  induction models generalizing acc with
  | nil => exact absurd rfl hne
  | cons a as ih =>
      obtain ⟨msg, hmsg⟩ := hall a (by simp)
      cases as with
      | nil =>
          refine ⟨msg, by simpa using hmsg, ?_⟩
          rw [generateWithFallbackGo_cons_fail attempt a msg [] acc hmsg]
          simp [generateWithFallbackGo, lastErrMessage]
      | cons b bs =>
          obtain ⟨lastMsg, hlast, heq⟩ :=
            ih (by simp) (some msg) (fun x hx => hall x (List.mem_cons_of_mem a hx))
          refine ⟨lastMsg, by simpa [List.getLast_cons] using hlast, ?_⟩
          rw [generateWithFallbackGo_cons_fail attempt a msg _ acc hmsg, heq]

/-! ## Ingestion-status poll loop (server.js:300-305) -/

/-- The states of `FileState` the server inspects: the poll continues on
`PROCESSING`, throws on `FAILED`, and proceeds otherwise (`ACTIVE`). -/
inductive FileState where
  | processing
  | active
  | failed
deriving Repr, DecidableEq

/-- The `while (file.state === FileState.PROCESSING)` loop: `states k` is
the state returned by the `k`-th `fileManager.getFile` call (`k = 0` is the
call before the loop).  `fuel` bounds how many states we are willing to
inspect; the JS loop has no such bound, so `none` means the loop is still
running after `fuel` inspections.  On exit, returns the index of the first
non-processing state. -/
def pollLoop (states : Nat → FileState) : Nat → Nat → Option Nat
  | 0, _ => none
  | fuel + 1, k =>
      if states k = FileState.processing then pollLoop states fuel (k + 1)
      else some k

/-- The poll step including the post-loop check
`if (file.state === FileState.FAILED) throw …` (server.js:305): `none` when
the loop is still running, otherwise the thrown error or the final state. -/
def pollOutcome (states : Nat → FileState) (fuel : Nat) :
    Option (Except String FileState) :=
  (pollLoop states fuel 0).map fun n =>
    if states n = FileState.failed then
      .error "Video processing failed at Google."
    else .ok (states n)

/-- Helper: an exit of the poll loop started at `k` is the first
non-processing index at or after `k`. -/
theorem pollLoop_exit_spec (states : Nat → FileState) (fuel k n : Nat)
    (h : pollLoop states fuel k = some n) :
    k ≤ n ∧ states n ≠ FileState.processing ∧
      ∀ j, k ≤ j → j < n → states j = FileState.processing := by
  induction fuel generalizing k with
  | zero => simp [pollLoop] at h
  | succ fuel ih =>
      rw [pollLoop] at h
      by_cases hk : states k = FileState.processing
      · rw [if_pos hk] at h
        obtain ⟨h1, h2, h3⟩ := ih (k + 1) h
        refine ⟨by omega, h2, fun j hj1 hj2 => ?_⟩
        rcases Nat.eq_or_lt_of_le hj1 with rfl | hlt
        · exact hk
        · exact h3 j hlt hj2
      · rw [if_neg hk] at h
        obtain rfl : k = n := by simpa using h
        exact ⟨le_refl k, hk, fun j hj1 hj2 => absurd hj1 (by omega)⟩

/-- C7: the ingestion-status poll loop exits exactly at the first
non-processing state, throws the fixed error when that state is the
terminal failed state, and never terminates on a sequence that stays in
processing forever (no maximum attempt bound). -/
theorem poll_loop_contract (states : Nat → FileState) :
    (∀ fuel n, pollLoop states fuel 0 = some n →
       states n ≠ FileState.processing ∧
         ∀ k, k < n → states k = FileState.processing) ∧
    (∀ fuel n, pollLoop states fuel 0 = some n →
       states n = FileState.failed →
         pollOutcome states fuel =
           some (.error "Video processing failed at Google.")) ∧
    ((∀ k, states k = FileState.processing) →
       ∀ fuel, pollLoop states fuel 0 = none) := by
  refine ⟨fun fuel n h => ?_, fun fuel n h hf => ?_, fun hall fuel => ?_⟩
  · obtain ⟨-, h2, h3⟩ := pollLoop_exit_spec states fuel 0 n h
    exact ⟨h2, fun k hk => h3 k (Nat.zero_le k) hk⟩
  · simp [pollOutcome, h, hf]
  · cases hpl : pollLoop states fuel 0 with
    | none => rfl
    | some n =>
        obtain ⟨-, h2, -⟩ := pollLoop_exit_spec states fuel 0 n hpl
        exact absurd (hall n) h2

/-- C7 witness: a sequence that is processing twice then failed makes the
loop exit at index 2 and the outcome throw; the all-processing sequence
keeps the loop running for any sampled fuel. -/
theorem poll_loop_contract_witness :
    ((fun k => if k < 2 then FileState.processing else FileState.failed) 2 ≠
        FileState.processing ∧
      ∀ k, k < 2 →
        (fun k => if k < 2 then FileState.processing else FileState.failed) k =
          FileState.processing) ∧
    pollOutcome (fun k => if k < 2 then FileState.processing else FileState.failed) 9 =
      some (.error "Video processing failed at Google.") ∧
    pollLoop (fun _ => FileState.processing) 9 0 = none := by
  have h2 : pollLoop (fun k => if k < 2 then FileState.processing else FileState.failed) 9 0 =
      some 2 := by decide
  refine ⟨?_, ?_, ?_⟩
  · exact (poll_loop_contract _).1 9 2 h2
  · exact (poll_loop_contract _).2.1 9 2 h2 (by decide)
  · exact (poll_loop_contract _).2.2 (fun _ => rfl) 9

/-- C2: `generateWithFallback` tries the model identifiers in the given
order with one attempt each (the first component of its result is the list
of attempted identifiers); when a prefix of attempts fails and the next
succeeds it returns exactly that attempt's result, trying nothing further,
and when every attempt fails it throws the aggregated error built from the
last attempted identifier's failure message. -/
theorem generateWithFallback_contract {R : Type} (attempt : String → GenOutcome R) :
    (∀ (pre post : List String) (m : String) (r : R),
        (∀ x ∈ pre, ∃ msg, attempt x = .fail msg) → attempt m = .ok r →
        generateWithFallback attempt (pre ++ m :: post) = (pre ++ [m], .ok r)) ∧
    (∀ (models : List String) (hne : models ≠ []),
        (∀ x ∈ models, ∃ msg, attempt x = .fail msg) →
        ∃ lastMsg, attempt (models.getLast hne) = .fail lastMsg ∧
          generateWithFallback attempt models =
            (models, .error ("Analysis failed. Last error: " ++ lastMsg))) := by
  constructor
  · intro pre post m r hpre hm
    exact generateWithFallbackGo_first_success attempt pre post m r none hpre hm
  · intro models hne hall
    exact generateWithFallbackGo_all_fail attempt models hne none hall

/-- A sample attempt behaviour where only the first configured model is
down; used to witness the fallback contract. -/
def attemptSecondOk : String → GenOutcome Nat :=
  fun m => if m = "gemini-2.5-pro" then GenOutcome.fail "503 overloaded"
           else GenOutcome.ok 7

/-- A sample attempt behaviour where every model fails with a
model-specific message; used to witness the fallback contract. -/
def attemptAllFail : String → GenOutcome Nat :=
  fun m => GenOutcome.fail (m ++ " down")

/-- C2 witness: with the configured `MODEL_FALLBACK_LIST`, when the first
model fails and the second succeeds the invoker returns the second's result
having attempted exactly the first two identifiers; when all three fail it
throws the aggregated error carrying the last identifier's message. -/
theorem generateWithFallback_contract_witness :
    generateWithFallback attemptSecondOk MODEL_FALLBACK_LIST =
      (["gemini-2.5-pro", "gemini-2.5-flash"], .ok 7) ∧
    generateWithFallback attemptAllFail MODEL_FALLBACK_LIST =
      (MODEL_FALLBACK_LIST,
        .error "Analysis failed. Last error: gemini-2.0-flash down") := by
  have hpre : ∀ x ∈ ["gemini-2.5-pro"], ∃ msg, attemptSecondOk x = .fail msg := by
    intro x hx
    obtain rfl : x = "gemini-2.5-pro" := by simpa using hx
    exact ⟨"503 overloaded", rfl⟩
  have hok : attemptSecondOk "gemini-2.5-flash" = .ok 7 := by decide
  have h1 := (generateWithFallback_contract attemptSecondOk).1
    ["gemini-2.5-pro"] ["gemini-2.0-flash"] "gemini-2.5-flash" 7 hpre hok
  have hne : MODEL_FALLBACK_LIST ≠ [] := by decide
  have hall : ∀ x ∈ MODEL_FALLBACK_LIST, ∃ msg, attemptAllFail x = .fail msg :=
    fun x _ => ⟨x ++ " down", rfl⟩
  obtain ⟨lastMsg, hl, he⟩ :=
    (generateWithFallback_contract attemptAllFail).2 MODEL_FALLBACK_LIST hne hall
  have hlast : MODEL_FALLBACK_LIST.getLast hne = "gemini-2.0-flash" := rfl
  rw [hlast] at hl
  have hmsg : lastMsg = "gemini-2.0-flash down" := by
    have hl' : GenOutcome.fail (R := Nat) ("gemini-2.0-flash" ++ " down") =
        GenOutcome.fail lastMsg := hl
    simpa using hl'.symm
  constructor
  · exact h1
  · rw [he, hmsg]
    rfl

/-! ## Roster merge (server.js:363-379) -/

/-- `p.weakness ? [p.weakness] : []` with JS truthiness (and the guarded
`push` in the matched branch, which uses the same condition). -/
def weaknessAppend (p : DetectedPlayer) : List String :=
  match p.weakness with
  | some w => if w ≠ "" then [w] else []
  | none => []

/-- One iteration of the `players_detected` merge loop: look up the roster
entry whose identifier matches (`findIndex`); when found, overwrite its
grade, push the observation onto its notes, push the weakness when truthy,
and refresh `last_updated`; otherwise append a fresh entry built from the
detected player's fields. -/
def mergeDetectedPlayer (now : Nat) (roster : List PlayerProfile)
    (p : DetectedPlayer) : List PlayerProfile :=
  if roster.any fun r => r.identifier == p.identifier then
    updateFirst (fun r => r.identifier == p.identifier)
      (fun r => { r with
        grade := p.grade
        notes := r.notes ++ [p.observation]
        weaknesses := r.weaknesses ++ weaknessAppend p
        last_updated := now }) roster
  else
    roster ++ [{ identifier := p.identifier
                 position := p.position
                 grade := p.grade
                 notes := [p.observation]
                 weaknesses := weaknessAppend p
                 last_updated := now }]

/-- The whole `for (const p of json.players_detected)` loop. -/
def mergeRoster (now : Nat) (roster : List PlayerProfile)
    (players : List DetectedPlayer) : List PlayerProfile :=
  players.foldl (mergeDetectedPlayer now) roster

/-- Helper: `updateFirst` rewrites exactly the first matching element. -/
theorem updateFirst_first_match {α : Type} (p : α → Bool) (f : α → α)
    (pre : List α) (x : α) (post : List α)
    (hpre : ∀ y ∈ pre, p y = false) (hx : p x = true) :
    updateFirst p f (pre ++ x :: post) = pre ++ f x :: post := by
  induction pre with
  | nil => simp [updateFirst, hx]
  | cons a as ih =>
      simp only [List.cons_append, updateFirst, hpre a (List.mem_cons_self a as),
        Bool.false_eq_true, if_false, List.cons.injEq, true_and]
      exact ih fun y hy => hpre y (List.mem_cons_of_mem a hy)

/-- C5: merging a detected player into a roster that holds a matching entry
rewrites exactly that entry — grade overwritten, observation appended to its
notes, truthy weakness appended to its weaknesses, timestamp refreshed —
keeping the roster length unchanged (no duplicate); with no matching entry,
a new entry carrying the detected player's fields is appended. -/
theorem roster_merge_contract (now : Nat) (p : DetectedPlayer) :
    (∀ (pre : List PlayerProfile) (r : PlayerProfile) (post : List PlayerProfile),
        (∀ x ∈ pre, x.identifier ≠ p.identifier) →
        r.identifier = p.identifier →
        mergeDetectedPlayer now (pre ++ r :: post) p =
            pre ++ { r with
              grade := p.grade
              notes := r.notes ++ [p.observation]
              weaknesses := r.weaknesses ++ weaknessAppend p
              last_updated := now } :: post ∧
          (mergeDetectedPlayer now (pre ++ r :: post) p).length =
            (pre ++ r :: post).length) ∧
    (∀ roster : List PlayerProfile,
        (∀ x ∈ roster, x.identifier ≠ p.identifier) →
        mergeDetectedPlayer now roster p =
          roster ++ [{ identifier := p.identifier
                       position := p.position
                       grade := p.grade
                       notes := [p.observation]
                       weaknesses := weaknessAppend p
                       last_updated := now }]) := by
  constructor
  · intro pre r post hpre hr
    have hany : ((pre ++ r :: post).any fun x => x.identifier == p.identifier) = true := by
      refine List.any_eq_true.mpr ⟨r, by simp, ?_⟩
      simpa using hr
    have heq : mergeDetectedPlayer now (pre ++ r :: post) p =
        pre ++ { r with
          grade := p.grade
          notes := r.notes ++ [p.observation]
          weaknesses := r.weaknesses ++ weaknessAppend p
          last_updated := now } :: post := by
      rw [mergeDetectedPlayer, if_pos hany]
      exact updateFirst_first_match _ _ pre r post
        (fun y hy => by simpa using hpre y hy) (by simpa using hr)
    exact ⟨heq, by simp [heq]⟩
  · intro roster hroster
    have hany : (roster.any fun x => x.identifier == p.identifier) = false := by
      simp only [List.any_eq_false]
      intro x hx
      simpa using hroster x hx
    rw [mergeDetectedPlayer, if_neg (by simp [hany])]

/-- C5 witness: a roster `[bob, alice]` merged with a detected player
`alice` updates the `alice` entry in place (length 2 preserved); the same
detected player against `[bob]` alone is appended as a new entry. -/
theorem roster_merge_contract_witness :
    mergeDetectedPlayer 5
        [⟨"bob", "rb", "C", [], [], 1⟩,
         ⟨"alice", "qb", "B", ["sharp"], ["slow read"], 1⟩]
        ⟨"alice", "qb", "A", "quick release", some "late hands"⟩ =
      [⟨"bob", "rb", "C", [], [], 1⟩,
       ⟨"alice", "qb", "A", ["sharp", "quick release"],
        ["slow read", "late hands"], 5⟩] ∧
    mergeDetectedPlayer 5 [⟨"bob", "rb", "C", [], [], 1⟩]
        ⟨"alice", "qb", "A", "quick release", some "late hands"⟩ =
      [⟨"bob", "rb", "C", [], [], 1⟩,
       ⟨"alice", "qb", "A", ["quick release"], ["late hands"], 5⟩] := by
  constructor
  · have h := (roster_merge_contract 5
        ⟨"alice", "qb", "A", "quick release", some "late hands"⟩).1
      [⟨"bob", "rb", "C", [], [], 1⟩]
      ⟨"alice", "qb", "B", ["sharp"], ["slow read"], 1⟩ []
      (by intro x hx; fin_cases hx; decide) rfl
    simpa [weaknessAppend] using h.1
  · have h := (roster_merge_contract 5
        ⟨"alice", "qb", "A", "quick release", some "late hands"⟩).2
      [⟨"bob", "rb", "C", [], [], 1⟩]
      (by intro x hx; fin_cases hx; decide)
    simpa [weaknessAppend] using h

/-! ## External effects and HTTP responses -/

/-- External calls a handler issues, recorded in order. -/
inductive Effect where
  | tempFileWrite (path : String)
  | tempFileUnlink (path : String)
  | cloudinaryUpload (path : String)
  | geminiFileUpload (path : String)
  | cloudinaryDestroy (publicId : String)
  | modelCall
deriving Repr, DecidableEq

/-- A JSON HTTP response: `ok` is a 200 with a payload, `err` carries the
status code and the error message. -/
inductive ApiResponse (α : Type) where
  | ok (payload : α)
  | err (status : Nat) (msg : String)
deriving Repr, DecidableEq

/-- `Session.updateOne({ sessionId }, { $push: { history: turn } })`
(server.js:276, 279, 389, 390).  Note the filter carries only the session
identifier — the source supplies no `owner` field here. -/
def pushSessionHistory (db : DB) (sid : String) (turn : ChatTurn) : DB :=
  { db with
    sessions := updateFirst (fun s => s.sessionId == sid)
      (fun s => { s with history := s.history ++ [turn] }) db.sessions }

/-! ## Text-only branch of `POST /api/chat` (server.js:275-281) -/

/-- Result of the text-only chat branch. -/
structure TextChatResult where
  db : DB
  response : ApiResponse String
deriving Repr, DecidableEq

/-- The `if (!fileData)` branch: push the user turn, invoke the fallback
invoker, push the model turn, reply; a thrown invoker error is caught by
the route's handler and becomes a 500 whose message is `e.message`.
`userId` is the authenticated caller; the source never consults it in this
branch. -/
def textOnlyChat (db : DB) (userId sid message : String)
    (attempt : String → GenOutcome String) : TextChatResult :=
  let db1 := pushSessionHistory db sid ⟨"user", message⟩
  match (generateWithFallback attempt MODEL_FALLBACK_LIST).2 with
  | .error e => { db := db1, response := .err 500 e }
  | .ok reply =>
      { db := pushSessionHistory db1 sid ⟨"model", reply⟩
        response := .ok reply }

/-- C1 (failing input): the text-only branch of `POST /api/chat` writes to
a Session selected by `sessionId` alone.  With a single session owned by
`alice`, a request authenticated as `mallory` (a different owner) appends
`mallory`'s message to `alice`'s session history — a database write to a
document whose owner field differs from the caller. -/
theorem cross_owner_history_write :
    ("mallory" ≠ "alice") ∧
    (textOnlyChat
        ⟨[⟨"sess_1", "alice", "T", "team", "football", [], []⟩], []⟩
        "mallory" "sess_1" "hi there"
        (fun _ => GenOutcome.fail "down")).db =
      ⟨[⟨"sess_1", "alice", "T", "team", "football",
         [⟨"user", "hi there"⟩], []⟩], []⟩ := by
  exact ⟨by decide, by decide⟩

/-! ## `POST /api/clip-chat` (server.js:221-251) -/

/-- Result of a clip-chat request; `modelCalled` records whether the
external fallback invoker was reached. -/
structure ClipChatResult where
  db : DB
  response : ApiResponse String
  modelCalled : Bool
deriving Repr, DecidableEq

/-- The clip-chat handler: load the clip scoped by `_id` and owner; when it
is missing or carries no analysis payload, reply `"Analysis needed first."`
without any external call; otherwise invoke the fallback invoker (the
prompt text built from clip, roster and history is abstracted into
`attempt`) and, on success, push the question and the reply together onto
the clip's chat log; a thrown invoker error is caught and becomes
`500 "Chat failed"`. -/
def clipChat (db : DB) (userId clipId message : String)
    (attempt : String → GenOutcome String) : ClipChatResult :=
  match db.clips.find? fun c => c.mongoId == clipId && c.owner == userId with
  | none => { db := db, response := .ok "Analysis needed first.", modelCalled := false }
  | some clip =>
      match clip.fullData with
      | none => { db := db, response := .ok "Analysis needed first.", modelCalled := false }
      | some _ =>
          match (generateWithFallback attempt MODEL_FALLBACK_LIST).2 with
          | .error _ => { db := db, response := .err 500 "Chat failed", modelCalled := true }
          | .ok reply =>
              { db := { db with
                  clips := updateFirst (fun c => c.mongoId == clipId)
                    (fun c => { c with
                      chatHistory :=
                        c.chatHistory ++ [⟨"user", message⟩, ⟨"model", reply⟩] })
                    db.clips }
                response := .ok reply
                modelCalled := true }

/-- C8: when the owner-scoped clip lookup misses or the clip has no stored
analysis payload, clip-chat returns the fixed instructional reply without
touching the database or the external model; conversely the model is
invoked only when the clip exists and carries an analysis payload. -/
theorem clip_chat_short_circuit (db : DB) (userId clipId message : String)
    (attempt : String → GenOutcome String) :
    ((db.clips.find? fun c => c.mongoId == clipId && c.owner == userId) = none →
       clipChat db userId clipId message attempt =
         ⟨db, .ok "Analysis needed first.", false⟩) ∧
    (∀ clip,
       (db.clips.find? fun c => c.mongoId == clipId && c.owner == userId) = some clip →
       clip.fullData = none →
       clipChat db userId clipId message attempt =
         ⟨db, .ok "Analysis needed first.", false⟩) ∧
    ((clipChat db userId clipId message attempt).modelCalled = true →
       ∃ clip j,
         (db.clips.find? fun c => c.mongoId == clipId && c.owner == userId) = some clip ∧
         clip.fullData = some j) := by
  refine ⟨fun h => by simp [clipChat, h], fun clip hc hf => by simp [clipChat, hc, hf], fun hm => ?_⟩
  cases hfind : db.clips.find? fun c => c.mongoId == clipId && c.owner == userId with
  | none =>
      have hval : clipChat db userId clipId message attempt =
          ⟨db, .ok "Analysis needed first.", false⟩ := by simp [clipChat, hfind]
      rw [hval] at hm
      exact absurd hm (by simp)
  | some clip =>
      cases hfd : clip.fullData with
      | none =>
          have hval : clipChat db userId clipId message attempt =
              ⟨db, .ok "Analysis needed first.", false⟩ := by simp [clipChat, hfind, hfd]
          rw [hval] at hm
          exact absurd hm (by simp)
      | some j => exact ⟨clip, j, hfind ▸ rfl, hfd⟩

/-- C8 witness: with an empty clip collection the lookup misses and the
handler short-circuits; with an analysed clip present, a completed request
that did call the model indeed had an analysis payload stored. -/
theorem clip_chat_short_circuit_witness :
    clipChat ⟨[], []⟩ "u1" "c1" "why did this fail?" (fun _ => GenOutcome.ok "r") =
      ⟨⟨[], []⟩, .ok "Analysis needed first.", false⟩ ∧
    ∃ clip j,
      (([⟨"c1", "u1", "s1", "football", "t", "f", "o", "d", "Inbox", "url",
          some "pid", none, some ⟨some "t", none, none, []⟩, [], [], 0⟩] : List ClipRec).find?
        fun c => c.mongoId == "c1" && c.owner == "u1") = some clip ∧
      clip.fullData = some j := by
  constructor
  · exact (clip_chat_short_circuit ⟨[], []⟩ "u1" "c1" "why did this fail?"
      (fun _ => GenOutcome.ok "r")).1 (by decide)
  · exact (clip_chat_short_circuit
      ⟨[], [⟨"c1", "u1", "s1", "football", "t", "f", "o", "d", "Inbox", "url",
             some "pid", none, some ⟨some "t", none, none, []⟩, [], [], 0⟩]⟩
      "u1" "c1" "why did this fail?" (fun _ => GenOutcome.ok "r")).2.2 (by decide)

/-- C10: given an analysed clip, clip-chat leaves the database — and hence
the clip's chat log — completely unchanged and returns a 500 when the
fallback invoker throws; only on invoker success are the user's question
and the model's reply pushed, together, onto the clip's chat log. -/
theorem clip_chat_append_atomic (db : DB) (userId clipId message : String)
    (attempt : String → GenOutcome String) (clip : ClipRec)
    (hc : (db.clips.find? fun c => c.mongoId == clipId && c.owner == userId) = some clip)
    (hd : clip.fullData.isSome = true) :
    (∀ e, (generateWithFallback attempt MODEL_FALLBACK_LIST).2 = .error e →
       clipChat db userId clipId message attempt =
         ⟨db, .err 500 "Chat failed", true⟩) ∧
    (∀ reply, (generateWithFallback attempt MODEL_FALLBACK_LIST).2 = .ok reply →
       clipChat db userId clipId message attempt =
         ⟨{ db with
            clips := updateFirst (fun c => c.mongoId == clipId)
              (fun c => { c with
                chatHistory :=
                  c.chatHistory ++ [⟨"user", message⟩, ⟨"model", reply⟩] })
              db.clips },
          .ok reply, true⟩) := by
  obtain ⟨j, hj⟩ := Option.isSome_iff_exists.mp hd
  constructor
  · intro e he
    simp [clipChat, hc, hj, he]
  · intro reply hr
    simp [clipChat, hc, hj, hr]

/-- The single analysed clip used to witness the clip-chat theorems. -/
def clipChatWitnessDB : DB :=
  ⟨[], [⟨"c1", "u1", "s1", "football", "t", "f", "o", "d", "Inbox", "url",
        some "pid", none, some ⟨some "t", none, none, []⟩, [], [], 0⟩]⟩

/-- C10 witness: with every model failing, a clip-chat request against a
concrete analysed clip returns the 500 and the database is untouched. -/
theorem clip_chat_append_atomic_witness :
    clipChat clipChatWitnessDB "u1" "c1" "q?" (fun _ => GenOutcome.fail "down") =
      ⟨clipChatWitnessDB, .err 500 "Chat failed", true⟩ := by
  have h := clip_chat_append_atomic clipChatWitnessDB "u1" "c1" "q?"
    (fun _ => GenOutcome.fail "down")
    ⟨"c1", "u1", "s1", "football", "t", "f", "o", "d", "Inbox", "url",
     some "pid", none, some ⟨some "t", none, none, []⟩, [], [], 0⟩
    (by decide) (by decide)
  exact h.1 "Analysis failed. Last error: down" (by decide)

/-! ## `POST /api/delete-session` (server.js:140-153) -/

/-- The `for (const clip of clips)` destroy loop: issue a remote
video-delete for every clip holding a truthy `publicId`; a rejected call
aborts the loop (the thrown error reaches the route's catch).  Returns the
issued destroy effects and whether the loop completed. -/
def destroyClips (destroyOk : String → Bool) : List ClipRec → List Effect × Bool
  | [] => ([], true)
  | c :: rest =>
      match c.publicId with
      | some pid =>
          if pid = "" then destroyClips destroyOk rest
          else if destroyOk pid then
            (Effect.cloudinaryDestroy pid :: (destroyClips destroyOk rest).1,
              (destroyClips destroyOk rest).2)
          else ([Effect.cloudinaryDestroy pid], false)
      | none => destroyClips destroyOk rest

/-- Result of a delete-session request. -/
structure DeleteSessionResult where
  db : DB
  response : ApiResponse Bool
  effects : List Effect
deriving Repr, DecidableEq

/-- The delete-session handler: `Session.deleteOne({ sessionId, owner })`,
then `Clip.find({ sessionId, owner })`, the destroy loop, and
`Clip.deleteMany({ sessionId, owner })`; any throw is caught as
`500 "Delete failed"`, leaving the work done so far in place. -/
def deleteSession (db : DB) (userId sid : String)
    (destroyOk : String → Bool) : DeleteSessionResult :=
  let db1 : DB := { db with
    sessions := deleteFirst (fun s => s.sessionId == sid && s.owner == userId)
      db.sessions }
  let clips := db1.clips.filter fun c => c.sessionId == sid && c.owner == userId
  let p := destroyClips destroyOk clips
  if p.2 then
    { db := { db1 with
        clips := db1.clips.filter fun c => !(c.sessionId == sid && c.owner == userId) }
      response := .ok true
      effects := p.1 }
  else
    { db := db1, response := .err 500 "Delete failed", effects := p.1 }

/-- Helper: a completed destroy loop issued a remote delete for every clip
of the list that holds a truthy stored video identifier. -/
theorem destroyClips_complete (destroyOk : String → Bool) (l : List ClipRec)
    (h : (destroyClips destroyOk l).2 = true) :
    ∀ c ∈ l, ∀ pid, c.publicId = some pid → pid ≠ "" →
      Effect.cloudinaryDestroy pid ∈ (destroyClips destroyOk l).1 := by
  induction l with
  | nil => simp
  | cons c rest ih =>
      intro x hx pid hpid hne
      cases hcp : c.publicId with
      | none =>
          simp only [destroyClips, hcp] at h ⊢
          rcases List.mem_cons.mp hx with rfl | hxr
          · rw [hcp] at hpid
            exact absurd hpid (by simp)
          · exact ih h x hxr pid hpid hne
      | some cpid =>
          simp only [destroyClips, hcp] at h ⊢
          by_cases hce : cpid = ""
          · rw [if_pos hce] at h ⊢
            rcases List.mem_cons.mp hx with rfl | hxr
            · rw [hcp] at hpid
              obtain rfl : cpid = pid := by simpa using hpid
              exact absurd hce hne
            · exact ih h x hxr pid hpid hne
          · rw [if_neg hce] at h ⊢
            by_cases hdok : destroyOk cpid = true
            · rw [if_pos hdok] at h ⊢
              rcases List.mem_cons.mp hx with rfl | hxr
              · rw [hcp] at hpid
                obtain rfl : cpid = pid := by simpa using hpid
                exact List.mem_cons_self _ _
              · exact List.mem_cons_of_mem _ (ih h x hxr pid hpid hne)
            · rw [if_neg hdok] at h
              simp at h

/-- C4: when a delete-session request completes successfully, no clip of
that session and owner remains in the database, and a remote video-delete
was issued for every such clip that held a truthy stored video
identifier. -/
theorem delete_session_cascade (db : DB) (userId sid : String)
    (destroyOk : String → Bool)
    (hok : (deleteSession db userId sid destroyOk).response = .ok true) :
    (∀ c ∈ (deleteSession db userId sid destroyOk).db.clips,
       ¬(c.sessionId = sid ∧ c.owner = userId)) ∧
    (∀ c ∈ db.clips, c.sessionId = sid → c.owner = userId →
       ∀ pid, c.publicId = some pid → pid ≠ "" →
         Effect.cloudinaryDestroy pid ∈ (deleteSession db userId sid destroyOk).effects) := by
  have hloop : (destroyClips destroyOk
      (List.filter (fun c => c.sessionId == sid && c.owner == userId) db.clips)).2 = true := by
    by_contra hl
    have hresp : (deleteSession db userId sid destroyOk).response =
        .err 500 "Delete failed" := by
      simp only [deleteSession]
      rw [if_neg hl]
    rw [hresp] at hok
    exact ApiResponse.noConfusion hok
  have hdbc : (deleteSession db userId sid destroyOk).db.clips =
      List.filter (fun c => !(c.sessionId == sid && c.owner == userId)) db.clips := by
    simp only [deleteSession]
    rw [if_pos hloop]
  have heff : (deleteSession db userId sid destroyOk).effects =
      (destroyClips destroyOk
        (List.filter (fun c => c.sessionId == sid && c.owner == userId) db.clips)).1 := by
    simp only [deleteSession]
    rw [if_pos hloop]
  constructor
  · intro c hc
    rw [hdbc] at hc
    have hkeep := (List.mem_filter.mp hc).2
    rintro ⟨rfl, rfl⟩
    simp at hkeep
  · intro c hc hsid howner pid hpid hne
    rw [heff]
    have hmem : c ∈ List.filter (fun c => c.sessionId == sid && c.owner == userId) db.clips :=
      List.mem_filter.mpr ⟨hc, by simp [hsid, howner]⟩
    exact destroyClips_complete destroyOk _ hloop c hmem pid hpid hne

/-- Witness database for the delete-session theorem: one session of `u1`
with two clips (one holding a stored video identifier, one without) plus a
foreign owner's clip in the same session. -/
def deleteWitnessDB : DB :=
  ⟨[⟨"s1", "u1", "T", "team", "football", [], []⟩],
   [⟨"c1", "u1", "s1", "football", "t", "f", "o", "d", "Inbox", "url",
     some "vid9", none, none, [], [], 0⟩,
    ⟨"c2", "u1", "s1", "football", "t", "f", "o", "d", "Inbox", "url",
     none, none, none, [], [], 0⟩,
    ⟨"c3", "eve", "s1", "football", "t", "f", "o", "d", "Inbox", "url",
     some "evevid", none, none, [], [], 0⟩]⟩

/-- C4 witness: a database with one session of `u1` holding two clips (one
with a stored video identifier, one without) and one foreign clip: after a
successful delete-session, `u1`'s clips for that session are gone and the
stored identifier was destroyed remotely. -/
theorem delete_session_cascade_witness :
    (∀ c ∈ (deleteSession deleteWitnessDB "u1" "s1" (fun _ => true)).db.clips,
       ¬(c.sessionId = "s1" ∧ c.owner = "u1")) ∧
    Effect.cloudinaryDestroy "vid9" ∈
      (deleteSession deleteWitnessDB "u1" "s1" (fun _ => true)).effects := by
  have h := delete_session_cascade deleteWitnessDB "u1" "s1" (fun _ => true) (by decide)
  refine ⟨h.1, ?_⟩
  exact h.2 ⟨"c1", "u1", "s1", "football", "t", "f", "o", "d", "Inbox", "url",
      some "vid9", none, none, [], [], 0⟩
    (by decide) rfl rfl "vid9" rfl (by decide)

/-! ## Video branch of `POST /api/chat` (server.js:283-399) -/

/-- The markdown-fence strip applied to the model's textual output
(server.js:348). -/
def cleanModelText (t : String) : String :=
  ((t.replace "```json" "").replace "```" "").trim

/-- The fixed payload substituted when `JSON.parse` throws
(server.js:356-360). -/
def analysisErrorPayload : AnalysisJson :=
  { title := some "Analysis Error"
    data := some ⟨"Error", "Error"⟩
    scouting_report :=
      some ⟨"The AI analysis could not be processed. Please try again."⟩
    players_detected := [] }

/-- `json = JSON.parse(text)` plus the `if (!json.data) json.data = …`
default, with the catch substituting the fixed error payload
(server.js:350-361).  The parse itself is an environment function; `none`
models a throw. -/
def normalizeParsed : Option AnalysisJson → AnalysisJson
  | none => analysisErrorPayload
  | some j => { j with data := some (j.data.getD ⟨"Unknown", "Unknown"⟩) }

/-- `json.title || "Untitled Clip"` (server.js:381), JS falsiness
included. -/
def jsTitle (j : AnalysisJson) : String :=
  match j.title with
  | some t => if t = "" then "Untitled Clip" else t
  | none => "Untitled Clip"

/-- `path.join(UPLOAD_DIR, "upload_" + Date.now() + ".mp4")`
(server.js:285). -/
def tempPathOf (now : Nat) : String :=
  "temp_uploads/upload_" ++ toString now ++ ".mp4"

/-- The placeholder `Clip.create` record (server.js:293-298): pending title
and formation, video fields from the storage upload, everything else
empty/default. -/
def placeholderClip (userId sid sport url pid clipId : String) (now : Nat) : ClipRec :=
  { mongoId := clipId
    owner := userId
    sessionId := sid
    sport := sport
    title := "Analyzing..."
    formation := "..."
    o_formation := ""
    d_formation := ""
    sectionLabel := "Inbox"
    videoUrl := url
    publicId := some pid
    geminiFileUri := none
    fullData := none
    chatHistory := []
    snapshots := []
    createdAt := now }

/-- The mutation of the placeholder clip once the analysis payload is in
hand (server.js:381-387). -/
def analyzedClip (c : ClipRec) (json : AnalysisJson) (uri : String) : ClipRec :=
  let d := json.data.getD ⟨"Unknown", "Unknown"⟩
  { c with
    title := jsTitle json
    o_formation := d.o_formation
    d_formation := d.d_formation
    formation := d.o_formation ++ " vs " ++ d.d_formation
    fullData := some json
    geminiFileUri := some uri }

/-- Environment of one video-analysis request: the outcome of every
external call the handler makes, in the order the source makes them.
`pollStates k` is the file state returned by the `k`-th
`fileManager.getFile`; `parse` models `JSON.parse` restricted to the keys
the server reads (`none` = throws); `stringify` models `JSON.stringify`
for the history entry. -/
structure VideoEnv where
  nowMs : Nat
  newClipId : String
  writeResult : Except String Unit
  cloudResult : Except String (String × String)
  geminiUpload : Except String String
  pollStates : Nat → FileState
  fileUri : String
  attempt : String → GenOutcome String
  parse : String → Option AnalysisJson
  stringify : AnalysisJson → String
  sessionSaveResult : Except String Unit
  clipSaveResult : Except String Unit

/-- Result of a completed video-analysis request. -/
structure VideoResult where
  db : DB
  response : ApiResponse (AnalysisJson × ClipRec)
  effects : List Effect
deriving Repr, DecidableEq

/-- The route's catch block (server.js:395-399): unlink the temp file and
answer 500 with the thrown message, keeping whatever database writes
already happened. -/
def caughtResult (tempPath : String) (dbNow : DB) (effs : List Effect)
    (msg : String) : VideoResult :=
  { db := dbNow
    response := .err 500 msg
    effects := effs ++ [Effect.tempFileUnlink tempPath] }

/-- The video branch of `POST /api/chat`: write the temp file, fan out the
two uploads, create the placeholder clip, poll the ingestion state, load
the owner-scoped session (the JS dereferences `session.roster` without a
null check, so a miss throws), invoke the fallback invoker, normalise the
parsed payload, merge the roster and save the session when players were
detected, save the analysed clip, push the two history turns (filtered by
sessionId only, as in the source), unlink and respond.  `none` means the
poll loop is still running after `fuel` state inspections (the JS loop is
unbounded).  Prompt construction (rules, playbook, rubric, roster text) is
abstracted into `attempt`. -/
def videoAnalyze (db : DB) (userId sid sport : String) (env : VideoEnv)
    (fuel : Nat) : Option VideoResult :=
  let tempPath := tempPathOf env.nowMs
  let effs0 := [Effect.tempFileWrite tempPath]
  match env.writeResult with
  | .error e => some (caughtResult tempPath db effs0 e)
  | .ok _ =>
    let effs1 := effs0 ++ [Effect.cloudinaryUpload tempPath,
      Effect.geminiFileUpload tempPath]
    match env.cloudResult with
    | .error e => some (caughtResult tempPath db effs1 e)
    | .ok cloud =>
      match env.geminiUpload with
      | .error e => some (caughtResult tempPath db effs1 e)
      | .ok _ =>
        let savedClip :=
          placeholderClip userId sid sport cloud.1 cloud.2 env.newClipId env.nowMs
        let db1 : DB := { db with clips := db.clips ++ [savedClip] }
        match pollLoop env.pollStates fuel 0 with
        | none => none
        | some n =>
          if env.pollStates n = FileState.failed then
            some (caughtResult tempPath db1 effs1 "Video processing failed at Google.")
          else
            match db1.sessions.find? fun s => s.sessionId == sid && s.owner == userId with
            | none =>
                some (caughtResult tempPath db1 effs1
                  "Cannot read properties of null (reading 'roster')")
            | some session =>
              let effs2 := effs1 ++ [Effect.modelCall]
              match (generateWithFallback env.attempt MODEL_FALLBACK_LIST).2 with
              | .error e => some (caughtResult tempPath db1 effs2 e)
              | .ok rawText =>
                let json := normalizeParsed (env.parse (cleanModelText rawText))
                match
                  (if json.players_detected.isEmpty then Except.ok db1
                   else match env.sessionSaveResult with
                     | .error e => .error e
                     | .ok _ => .ok { db1 with
                         sessions := updateFirst
                           (fun s => s.sessionId == sid && s.owner == userId)
                           (fun s => { s with
                             roster := mergeRoster env.nowMs session.roster
                               json.players_detected })
                           db1.sessions }) with
                | .error e => some (caughtResult tempPath db1 effs2 e)
                | .ok db2 =>
                  match env.clipSaveResult with
                  | .error e => some (caughtResult tempPath db2 effs2 e)
                  | .ok _ =>
                    let newClip := analyzedClip savedClip json env.fileUri
                    let db3 : DB := { db2 with
                      clips := updateFirst (fun c => c.mongoId == env.newClipId)
                        (fun _ => newClip) db2.clips }
                    let db4 := pushSessionHistory db3 sid ⟨"user", "Uploaded Video Analysis"⟩
                    let db5 := pushSessionHistory db4 sid ⟨"model", env.stringify json⟩
                    some { db := db5
                           response := .ok (json, newClip)
                           effects := effs2 ++ [Effect.tempFileUnlink tempPath] }

/-- C6: every completed execution of the video branch — success or any
failure caught after the temp file's path is fixed — records the temp-file
write attempt and a matching unlink in its effect trace: the file is
removed on every exit path. -/
theorem temp_file_always_unlinked (db : DB) (userId sid sport : String)
    (env : VideoEnv) (fuel : Nat) (r : VideoResult)
    (h : videoAnalyze db userId sid sport env fuel = some r) :
    Effect.tempFileWrite (tempPathOf env.nowMs) ∈ r.effects ∧
    Effect.tempFileUnlink (tempPathOf env.nowMs) ∈ r.effects := by
  simp only [videoAnalyze] at h
  repeat' split at h
  all_goals
    first
      | exact Option.noConfusion h
      | (obtain rfl := Option.some.inj h; constructor <;> simp [caughtResult])

/-- C6 witness: a concrete request whose temp-file write itself fails still
completes with the unlink in its trace. -/
theorem temp_file_always_unlinked_witness :
    Effect.tempFileWrite (tempPathOf 7) ∈
      (caughtResult (tempPathOf 7) ⟨[], []⟩ [Effect.tempFileWrite (tempPathOf 7)]
        "disk full").effects ∧
    Effect.tempFileUnlink (tempPathOf 7) ∈
      (caughtResult (tempPathOf 7) ⟨[], []⟩ [Effect.tempFileWrite (tempPathOf 7)]
        "disk full").effects := by
  exact temp_file_always_unlinked ⟨[], []⟩ "u1" "s1" "football"
    { nowMs := 7
      newClipId := "c1"
      writeResult := .error "disk full"
      cloudResult := .ok ("url", "pid")
      geminiUpload := .ok "files/f1"
      pollStates := fun _ => FileState.active
      fileUri := "uri1"
      attempt := fun _ => GenOutcome.ok "{}"
      parse := fun _ => none
      stringify := fun _ => "{}"
      sessionSaveResult := .ok ()
      clipSaveResult := .ok () }
    3 _ rfl

/-- C3: when the flow reaches the model and the model's text fails to
parse as JSON, the handler substitutes the fixed error payload — title
"Analysis Error", error formations, generic summary — persists it onto the
clip and answers 200 (an `ok` response), instead of surfacing the parse
failure as an error response. -/
theorem malformed_output_recovered (db : DB) (userId sid sport : String)
    (env : VideoEnv) (fuel n : Nat) (cloud : String × String)
    (fileName rawText : String) (session : SessionRec)
    (hw : env.writeResult = .ok ())
    (hc : env.cloudResult = .ok cloud)
    (hg : env.geminiUpload = .ok fileName)
    (hp : pollLoop env.pollStates fuel 0 = some n)
    (hnf : ¬env.pollStates n = FileState.failed)
    (hs : (db.sessions.find? fun s => s.sessionId == sid && s.owner == userId) =
      some session)
    (hgen : (generateWithFallback env.attempt MODEL_FALLBACK_LIST).2 = .ok rawText)
    (hparse : env.parse (cleanModelText rawText) = none)
    (hcs : env.clipSaveResult = .ok ())
    (hfresh : ∀ c ∈ db.clips, ¬c.mongoId = env.newClipId) :
    ∃ r finalClip,
      videoAnalyze db userId sid sport env fuel = some r ∧
      r.response = .ok (analysisErrorPayload, finalClip) ∧
      finalClip ∈ r.db.clips ∧
      finalClip.title = "Analysis Error" ∧
      finalClip.o_formation = "Error" ∧
      finalClip.d_formation = "Error" ∧
      finalClip.fullData = some analysisErrorPayload ∧
      analysisErrorPayload.scouting_report =
        some ⟨"The AI analysis could not be processed. Please try again."⟩ := by
  have hupd : updateFirst (fun c => c.mongoId == env.newClipId)
      (fun _ => analyzedClip
        (placeholderClip userId sid sport cloud.1 cloud.2 env.newClipId env.nowMs)
        analysisErrorPayload env.fileUri)
      (db.clips ++
        [placeholderClip userId sid sport cloud.1 cloud.2 env.newClipId env.nowMs]) =
      db.clips ++
        [analyzedClip
          (placeholderClip userId sid sport cloud.1 cloud.2 env.newClipId env.nowMs)
          analysisErrorPayload env.fileUri] :=
    updateFirst_first_match _ _ db.clips _ []
      (fun y hy => by simpa using hfresh y hy) (by simp [placeholderClip])
  refine ⟨{ db := pushSessionHistory (pushSessionHistory
              { db with
                clips := db.clips ++ [analyzedClip
                  (placeholderClip userId sid sport cloud.1 cloud.2 env.newClipId env.nowMs)
                  analysisErrorPayload env.fileUri] }
              sid ⟨"user", "Uploaded Video Analysis"⟩)
              sid ⟨"model", env.stringify analysisErrorPayload⟩
            response := .ok (analysisErrorPayload, analyzedClip
              (placeholderClip userId sid sport cloud.1 cloud.2 env.newClipId env.nowMs)
              analysisErrorPayload env.fileUri)
            effects := [Effect.tempFileWrite (tempPathOf env.nowMs),
              Effect.cloudinaryUpload (tempPathOf env.nowMs),
              Effect.geminiFileUpload (tempPathOf env.nowMs),
              Effect.modelCall,
              Effect.tempFileUnlink (tempPathOf env.nowMs)] },
          analyzedClip
            (placeholderClip userId sid sport cloud.1 cloud.2 env.newClipId env.nowMs)
            analysisErrorPayload env.fileUri,
          ?heq, rfl, ?hmem,
          by show jsTitle analysisErrorPayload = "Analysis Error"; decide,
          by show (analysisErrorPayload.data.getD ⟨"Unknown", "Unknown"⟩).o_formation =
            "Error"; decide,
          by show (analysisErrorPayload.data.getD ⟨"Unknown", "Unknown"⟩).d_formation =
            "Error"; decide,
          rfl, rfl⟩
  case heq =>
    simp only [videoAnalyze, hw, hc, hg, hp, if_neg hnf, hs, hgen, hparse, hcs,
      normalizeParsed]
    rw [show analysisErrorPayload.players_detected.isEmpty = true from rfl]
    simp only [eq_self_iff_true, if_true]
    rw [hupd]
    rfl
  case hmem =>
    simp only [pushSessionHistory]
    exact List.mem_append_right _ (List.mem_singleton.mpr rfl)

/-- Concrete environment for the video-branch witnesses: every external
call succeeds, the ingestion file is active immediately, the model returns
text that is not JSON. -/
def videoWitnessEnv : VideoEnv :=
  { nowMs := 0
    newClipId := "c1"
    writeResult := .ok ()
    cloudResult := .ok ("http://v", "pub1")
    geminiUpload := .ok "files/f1"
    pollStates := fun _ => FileState.active
    fileUri := "uri1"
    attempt := fun _ => GenOutcome.ok "not json"
    parse := fun _ => none
    stringify := fun _ => "{}"
    sessionSaveResult := .ok ()
    clipSaveResult := .ok () }

/-- Concrete database for the video-branch witnesses: one session owned by
`u1`, no clips. -/
def videoWitnessDB : DB :=
  ⟨[⟨"s1", "u1", "T", "team", "football", [], []⟩], []⟩

/-- C3 witness: a concrete request whose model output fails to parse
completes with the fixed error payload persisted and a 200. -/
theorem malformed_output_recovered_witness :
    ∃ r finalClip,
      videoAnalyze videoWitnessDB "u1" "s1" "football" videoWitnessEnv 1 = some r ∧
      r.response = .ok (analysisErrorPayload, finalClip) ∧
      finalClip ∈ r.db.clips ∧
      finalClip.title = "Analysis Error" ∧
      finalClip.o_formation = "Error" ∧
      finalClip.d_formation = "Error" ∧
      finalClip.fullData = some analysisErrorPayload ∧
      analysisErrorPayload.scouting_report =
        some ⟨"The AI analysis could not be processed. Please try again."⟩ :=
  malformed_output_recovered videoWitnessDB "u1" "s1" "football" videoWitnessEnv 1 0
    ("http://v", "pub1") "files/f1" "not json"
    ⟨"s1", "u1", "T", "team", "football", [], []⟩
    rfl rfl rfl (by decide) (by decide) (by decide) (by decide) rfl rfl
    (by simp [videoWitnessDB])

/-- C9: after the placeholder clip is created, a failure of any later step
— terminal ingestion failure, a missing owner-scoped session, exhaustion of
all fallback models, or a failing clip save — yields a 500 response while
the placeholder clip (with its pending fields) is still persisted and no
remote video-delete is ever issued: the failed flow is not atomic. -/
theorem failed_flow_not_atomic (db : DB) (userId sid sport : String)
    (env : VideoEnv) (fuel n : Nat) (cloud : String × String) (fileName : String)
    (hw : env.writeResult = .ok ())
    (hc : env.cloudResult = .ok cloud)
    (hg : env.geminiUpload = .ok fileName)
    (hp : pollLoop env.pollStates fuel 0 = some n)
    (hfail : env.pollStates n = FileState.failed ∨
      (db.sessions.find? fun s => s.sessionId == sid && s.owner == userId) = none ∨
      (∃ e, (generateWithFallback env.attempt MODEL_FALLBACK_LIST).2 = .error e) ∨
      (∃ e, env.clipSaveResult = .error e)) :
    ∃ r, videoAnalyze db userId sid sport env fuel = some r ∧
      (∃ msg, r.response = .err 500 msg) ∧
      placeholderClip userId sid sport cloud.1 cloud.2 env.newClipId env.nowMs ∈
        r.db.clips ∧
      ∀ pid, Effect.cloudinaryDestroy pid ∉ r.effects := by
  simp only [videoAnalyze, hw, hc, hg, hp]
  by_cases hpf : env.pollStates n = FileState.failed
  · rw [if_pos hpf]
    refine ⟨_, rfl, ⟨_, rfl⟩, List.mem_append_right _ (List.mem_singleton.mpr rfl), ?_⟩
    intro pid hmem
    simp [caughtResult] at hmem
  · rw [if_neg hpf]
    cases hfind : List.find? (fun s => s.sessionId == sid && s.owner == userId)
        db.sessions with
    | none =>
        refine ⟨_, rfl, ⟨_, rfl⟩,
          List.mem_append_right _ (List.mem_singleton.mpr rfl), ?_⟩
        intro pid hmem
        simp [caughtResult] at hmem
    | some session =>
        simp only []
        cases hgen : (generateWithFallback env.attempt MODEL_FALLBACK_LIST).2 with
        | error e =>
            refine ⟨_, rfl, ⟨_, rfl⟩,
              List.mem_append_right _ (List.mem_singleton.mpr rfl), ?_⟩
            intro pid hmem
            simp [caughtResult] at hmem
        | ok rawText =>
            simp only []
            have hclip : ∃ e, env.clipSaveResult = .error e := by
              rcases hfail with h1 | h2 | ⟨e, h3⟩ | h4
              · exact absurd h1 hpf
              · rw [hfind] at h2
                exact Option.noConfusion h2
              · rw [hgen] at h3
                exact Except.noConfusion h3
              · exact h4
            obtain ⟨e, hcl⟩ := hclip
            rw [hcl]
            by_cases hpe : (normalizeParsed
                (env.parse (cleanModelText rawText))).players_detected.isEmpty = true
            · rw [if_pos hpe]
              refine ⟨_, rfl, ⟨_, rfl⟩,
                List.mem_append_right _ (List.mem_singleton.mpr rfl), ?_⟩
              intro pid hmem
              simp [caughtResult] at hmem
            · rw [if_neg hpe]
              cases hss : env.sessionSaveResult with
              | error e2 =>
                  refine ⟨_, rfl, ⟨_, rfl⟩,
                    List.mem_append_right _ (List.mem_singleton.mpr rfl), ?_⟩
                  intro pid hmem
                  simp [caughtResult] at hmem
              | ok u =>
                  refine ⟨_, rfl, ⟨_, rfl⟩,
                    List.mem_append_right _ (List.mem_singleton.mpr rfl), ?_⟩
                  intro pid hmem
                  simp [caughtResult] at hmem

/-- C9 witness: a concrete request whose ingestion reaches the terminal
failed state answers 500 while the placeholder clip is still in the
database and no remote delete was issued. -/
theorem failed_flow_not_atomic_witness :
    ∃ r, videoAnalyze videoWitnessDB "u1" "s1" "football"
        { videoWitnessEnv with pollStates := fun _ => FileState.failed } 1 = some r ∧
      (∃ msg, r.response = .err 500 msg) ∧
      placeholderClip "u1" "s1" "football" "http://v" "pub1" "c1" 0 ∈ r.db.clips ∧
      ∀ pid, Effect.cloudinaryDestroy pid ∉ r.effects :=
  failed_flow_not_atomic videoWitnessDB "u1" "s1" "football"
    { videoWitnessEnv with pollStates := fun _ => FileState.failed } 1 0
    ("http://v", "pub1") "files/f1"
    rfl rfl rfl (by decide) (Or.inl rfl)

end VantageVision
